import Mathlib

/-!
# Verification of the yuzai event-routing and dependency-install core

This file gives a shallow embedding, in Lean 4, of the trigger-matching
engine (`Trigger` / `Plugin`), the dispatcher (`Bot` / `Client`) and the
dependency-install state machine (`dependency-manager.ts`) of the yuzai
chat-bot framework, together with theorems settling the behavioural
claims of its specification.

Modelling conventions:
* JavaScript objects become structures; `undefined`-able fields become
  `Option`.
* JS `Map` becomes an insertion-ordered association list (`aset` replaces
  in place, like `Map.set`).
* Object identity matters for `waitForInstallation` (the TS code captures
  a status *object* while `setInstallStatus` replaces the object stored in
  the map), so the install-status store is modelled with an explicit heap:
  the map sends a module dir to a reference, the heap sends references to
  status records, and `setInstallStatus` allocates a fresh reference.
* Async handlers are opaque: a handler is represented by a numeric
  identity, and results record which handlers were invoked. Timers become
  explicit pending-timer records which an adversarial scheduler may fire.
* `execPromise` invocations (package-manager install / build commands)
  are abstracted by a stream of `Bool` outcomes (`true` = the command
  succeeded) consumed one per attempt.
-/

namespace Yuzai

/-- Truthiness of a JS `boolean | undefined` value (`undefined` and
`false` are falsy). -/
def jsTruthy : Option Bool → Bool
  | some b => b
  | none => false

/-- Truthiness of a JS `number | undefined` value (`undefined` and `0`
are falsy). -/
def jsTruthyNat : Option Nat → Bool
  | some n => !(n = 0 : Bool) && true
  | none => false

/-- First-match association-list lookup (JS `Map.get`). -/
def alookup {α β : Type} [DecidableEq α] : List (α × β) → α → Option β
  | [], _ => none
  | (k, v) :: rest, a => if k = a then some v else alookup rest a

/-- Association-list update (JS `Map.set`): replaces in place, preserving
insertion order, appending when the key is new. -/
def aset {α β : Type} [DecidableEq α] : List (α × β) → α → β → List (α × β)
  | [], a, b => [(a, b)]
  | (k, v) :: rest, a, b => if k = a then (a, b) :: rest else (k, v) :: aset rest a b

/-- Association-list removal (JS `Map.delete`). -/
def aerase {α β : Type} [DecidableEq α] : List (α × β) → α → List (α × β)
  | [], _ => []
  | (k, v) :: rest, a => if k = a then rest else (k, v) :: aerase rest a

/-- JS `Set.add` on a list representation: appends unless already present. -/
def setAdd (l : List String) (x : String) : List String :=
  if x ∈ l then l else l ++ [x]

/-! ## Message / event model (`types.ts`, `message.ts`, `event.ts`)

Only the observables the routing engine reads are modelled: the string
rendering of a message (`message.toString()`), the sender id, and the
delivery target (`Target`, a tagged union over person/group/guild). -/

/-- `Target` of `types.ts`: the delivery channel of a message. -/
inductive Target : Type
  | person (userID : String)
  | group (groupID : String)
  | guild (guildID : String) (channelID : String)
deriving DecidableEq

/-- The observables of a received `Message`: its string rendering
(`toString()`), `senderID`, and optional `target`. -/
structure Message where
  text : String
  senderID : String
  target : Option Target
deriving DecidableEq

/-- A `MessageEvent` as seen by triggers and plugins. -/
structure MessageEvent where
  message : Message
deriving DecidableEq

/-- A `NoticeEvent`: the routing engine only reads its `type`. -/
structure NoticeEvent where
  type : String
deriving DecidableEq

/-! ## MessageTrigger (`plugin.ts`, class `MessageTrigger extends Trigger`) -/

/-- JS `\s` test (ASCII fragment; the claims never depend on exotic
whitespace). -/
def isJsSpace (c : Char) : Bool :=
  c = ' ' || c = '\t' || c = '\n' || c = '\r' || c = '\x0b' || c = '\x0c'

/-- Test of the regular expression `^#X($|\s+.*)` against a string: the
string starts with `#X` and is then either finished or followed by a
whitespace character.  This is the only regex family the `MessageTrigger`
constructor builds itself (from `command` or `name`). -/
def commandRegexTest (x s : String) : Bool :=
  let pre := "#" ++ x
  if s.startsWith pre then
    let r := s.drop pre.length
    r.isEmpty ||
      (match r.data with
        | [] => false
        | c :: _ => isJsSpace c)
  else false

/-- A constructed `MessageTrigger`.  A user-supplied `RegExp` is opaque,
so `regexTest` holds its observable test predicate; the `handler` is
opaque and is tracked through the `invoked` flag of `HandleResult`. -/
structure MessageTrigger where
  name : String
  description : String
  events : List String
  priority : Int
  abort : Bool
  wait : Bool
  regexTest : String → Bool
  filter : MessageEvent → Bool

/-- The named constructor arguments of `new MessageTrigger({...})`; absent
arguments are `none`. -/
structure MessageTriggerOpts where
  name : String
  description : String := ""
  event : Option String := none
  events : Option (List String) := none
  command : Option String := none
  regex : Option (String → Bool) := none
  priority : Option Int := none
  handlerId : Nat := 0
  abort : Option Bool := none
  wait : Option Bool := none
  filter : Option (MessageEvent → Bool) := none

/-- The `MessageTrigger` constructor.  Mirrors the TS code:
`super` runs `if (abort) this._abort = abort; if (wait) this._wait = wait;`
(a truthiness test, so `abort: false` leaves the default `true`); then
`event`/`events` populate the scope set, defaulting to `{"message"}` when
empty; `regex` wins over `command`, which wins over the `name`-derived
pattern; `if (priority) this._priority = priority`; a supplied `filter`
overrides the regex-based default. -/
def mkMessageTrigger (o : MessageTriggerOpts) : MessageTrigger :=
  let ab := if jsTruthy o.abort then o.abort.getD true else true
  let wt := if jsTruthy o.wait then o.wait.getD true else true
  let evs0 : List String := []
  let evs1 := match o.event with
    | some e => if e = "" then evs0 else setAdd evs0 e
    | none => evs0
  let evs2 := match o.events with
    | some es => es.foldl setAdd evs1
    | none => evs1
  let evs3 := if evs2.length = 0 then setAdd evs2 "message" else evs2
  let rtest : String → Bool := match o.regex with
    | some f => f
    | none =>
      commandRegexTest (match o.command with
        | some c => if c = "" then o.name else c
        | none => o.name)
  let prio : Int := match o.priority with
    | some p => if p = 0 then 0 else p
    | none => 0
  { name := o.name
    description := o.description
    events := evs3
    priority := prio
    abort := ab
    wait := wt
    regexTest := rtest
    filter := match o.filter with
      | some f => f
      | none => fun e => rtest e.message.text }

/-- `MessageTrigger.filterType`: the wildcard `"message"` matches every
scope; otherwise the event's concrete channel must be in the scope set;
an event without a target never matches. -/
def MessageTrigger.filterType (t : MessageTrigger) (e : MessageEvent) : Bool :=
  if t.events.contains "message" then true
  else
    match e.message.target with
    | some (.person _) => t.events.contains "message.private"
    | some (.group _) => t.events.contains "message.group"
    | some (.guild _ _) => t.events.contains "message.guild"
    | none => false

/-- Result of `handle`: whether the user handler was invoked, and the
boolean the method returned. -/
structure HandleResult where
  invoked : Bool
  result : Bool
deriving DecidableEq

/-- `MessageTrigger.handle`: scope filter, then predicate; on a match the
handler runs (awaited iff `wait`) and the method returns `true` exactly
when `_abort` is set, otherwise `false`. -/
def MessageTrigger.handle (t : MessageTrigger) (e : MessageEvent) : HandleResult :=
  if ¬ t.filterType e then ⟨false, false⟩
  else if t.filter e then
    if t.abort then ⟨true, true⟩ else ⟨true, false⟩
  else ⟨false, false⟩

/-- Scope-and-predicate match of a message trigger (the condition under
which `handle` runs the handler). -/
def matchesB (t : MessageTrigger) (e : MessageEvent) : Bool :=
  t.filterType e && t.filter e

/-! ## NoticeTrigger -/

/-- A constructed `NoticeTrigger`; its base-class `abort`/`wait` keep
their defaults because the constructor's `super` call passes neither. -/
structure NoticeTrigger where
  name : String
  description : String
  events : List String
  priority : Int
  abort : Bool
  wait : Bool

/-- Constructor arguments of `new NoticeTrigger({...})`. -/
structure NoticeTriggerOpts where
  name : String
  description : String := ""
  event : Option String := none
  events : Option (List String) := none

/-- The `NoticeTrigger` constructor: only `event`/`events` populate the
scope set — with no default when both are absent. -/
def mkNoticeTrigger (o : NoticeTriggerOpts) : NoticeTrigger :=
  let evs1 : List String := match o.event with
    | some e => if e = "" then [] else setAdd [] e
    | none => []
  let evs2 := match o.events with
    | some es => es.foldl setAdd evs1
    | none => evs1
  { name := o.name
    description := o.description
    events := evs2
    priority := 0
    abort := true
    wait := true }

/-- `NoticeTrigger.filterType`: the wildcard `"notice"` or the event's
concrete sub-kind must be in the scope set. -/
def NoticeTrigger.filterType (t : NoticeTrigger) (e : NoticeEvent) : Bool :=
  t.events.contains "notice" || t.events.contains e.type

/-- `NoticeTrigger.handle`: no predicate step; on a scope match the
handler runs and `_abort` is returned. -/
def NoticeTrigger.handle (t : NoticeTrigger) (e : NoticeEvent) : HandleResult :=
  if ¬ t.filterType e then ⟨false, false⟩
  else ⟨true, t.abort⟩

/-! ## Plugin (`plugin.ts`, class `Plugin`)

Interaction sessions store an opaque continuation handler (represented by
its numeric identity `sid`) and an optional pending-timeout handle.
Pending `setTimeout` callbacks are explicit `PendingTimer` records; the
scheduler firing timer `t` is the function `fireTimer`. -/

/-- An `InteractionSession` value of `Plugin._interactions`. -/
structure Session where
  sid : Nat
  timeout : Option Nat
deriving DecidableEq

/-- A pending `setTimeout` scheduled by `startInteract`: its handle, the
conversation key its callback captured, and the timeout message it will
send. -/
structure PendingTimer where
  tid : Nat
  key : String
  message : String
deriving DecidableEq

/-- The mutable state of one `Plugin` that message routing touches. -/
structure PluginState where
  id : String
  name : String := ""
  priority : Int := 0
  messageTriggers : List MessageTrigger := []
  interactions : List (String × Session) := []
  timers : List PendingTimer := []
  nextTimer : Nat := 0
  sent : List String := []

/-- `Plugin.getInteractKey`: the conversation key of a message event
(`private:{senderID}`, `group:{senderID}:{groupID}`,
`guild:{senderID}:{guildID}:{channelID}`), `undefined` when the message
has no target. -/
def getInteractKey (e : MessageEvent) : Option String :=
  match e.message.target with
  | none => none
  | some (.person _) => some ("private:" ++ e.message.senderID)
  | some (.group gid) => some ("group:" ++ e.message.senderID ++ ":" ++ gid)
  | some (.guild gid cid) =>
    some ("guild:" ++ e.message.senderID ++ ":" ++ gid ++ ":" ++ cid)

/-- `Plugin.startInteract(event, handler, timeoutSeconds?, timeoutMessage)`:
registers the session under the conversation key via `Map.set` (replacing
any previous entry), scheduling a deletion timer when `timeoutSeconds` is
truthy.  Note: the previous session's pending timer is *not* cleared —
this mirrors the TS code, which has no `clearTimeout` here. -/
def startInteract (p : PluginState) (e : MessageEvent) (hid : Nat)
    (timeoutSeconds : Option Nat) (timeoutMessage : String := "操作超时已取消") :
    PluginState :=
  match getInteractKey e with
  | none => p
  | some key =>
    if jsTruthyNat timeoutSeconds then
      { p with
          interactions := aset p.interactions key ⟨hid, some p.nextTimer⟩
          timers := p.timers ++ [⟨p.nextTimer, key, timeoutMessage⟩]
          nextTimer := p.nextTimer + 1 }
    else
      { p with interactions := aset p.interactions key ⟨hid, none⟩ }

/-- Firing of a pending interaction timer `t`: the `setTimeout` callback
of `startInteract` runs `this.interactions.delete(key)` for its captured
key and replies with the timeout message.  A timer that is no longer
pending does nothing. -/
def fireTimer (p : PluginState) (t : Nat) : PluginState :=
  match p.timers.find? (fun tm => tm.tid = t) with
  | none => p
  | some tm =>
    { p with
        timers := p.timers.filter (fun x => ¬ x.tid = t)
        interactions := aerase p.interactions tm.key
        sent := p.sent ++ [tm.message] }

/-- `Plugin.finishInteract(event)`: when a session exists for the event's
key, its timeout is cleared (the pending timer removed) and the session
deleted. -/
def finishInteract (p : PluginState) (e : MessageEvent) : PluginState :=
  match getInteractKey e with
  | none => p
  | some key =>
    match alookup p.interactions key with
    | none => p
    | some sess =>
      { p with
          timers := match sess.timeout with
            | some tid => p.timers.filter (fun x => ¬ x.tid = tid)
            | none => p.timers
          interactions := aerase p.interactions key }

/-- The session, if any, that `Plugin.onMessage` would hand the event to. -/
def sessionFor (p : PluginState) (e : MessageEvent) : Option Session :=
  (getInteractKey e).bind (fun key => alookup p.interactions key)

/-! ### The per-dispatch trigger sort

`onMessage` runs `this._messageTriggers.sort((a, b) => b.priority - a.priority)`.
JS `Array.prototype.sort` is stable, so on position-tagged triggers it is
the unique permutation sorted by the total order "higher priority first,
ties by original position".  `List.insertionSort` by that total order
computes exactly this permutation. -/

/-- The total order realised by the stable descending-priority sort on
position-tagged triggers. -/
def triggerLE (a b : Nat × MessageTrigger) : Prop :=
  b.2.priority < a.2.priority ∨ (a.2.priority = b.2.priority ∧ a.1 ≤ b.1)

instance : DecidableRel triggerLE := fun a b => by
  unfold triggerLE; exact inferInstance

instance : IsTotal (Nat × MessageTrigger) triggerLE :=
  ⟨by intro a b; unfold triggerLE; omega⟩

instance : IsTrans (Nat × MessageTrigger) triggerLE :=
  ⟨by intro a b c hab hbc; unfold triggerLE at *; omega⟩

/-- The dispatch order of a plugin's message triggers: stable sort by
descending priority, with each trigger tagged by its registration index. -/
def sortTriggers (ts : List MessageTrigger) : List (Nat × MessageTrigger) :=
  List.insertionSort triggerLE ts.enum

/-- The trigger loop of `Plugin.onMessage`: walk the (tagged) triggers in
dispatch order, calling `handle` on each until one returns `true`.
Returns the tested registration indices in order, the registration
indices whose handler was invoked, and the index at which the loop
stopped (`none` when no `handle` returned `true`). -/
def runTriggers (e : MessageEvent) :
    List (Nat × MessageTrigger) → List Nat × List Nat × Option Nat
  | [] => ([], [], none)
  | (i, t) :: rest =>
    let h := t.handle e
    if h.result then ([i], if h.invoked then [i] else [], some i)
    else
      let r := runTriggers e rest
      (i :: r.1, (if h.invoked then [i] else []) ++ r.2.1, r.2.2)

/-- The outcome of one `Plugin.onMessage` call: the boolean returned to
the Bot, the session handler the event was delivered to (if any), and the
tested / invoked registration indices of the trigger pass. -/
structure MsgDispatch where
  handled : Bool
  deliveredTo : Option Nat
  tested : List Nat
  invoked : List Nat
  stop : Option Nat
deriving DecidableEq

/-- The trigger-matching path of `Plugin.onMessage` (taken when no
interaction session applies). -/
def onMessageTriggers (p : PluginState) (e : MessageEvent) : MsgDispatch :=
  let r := runTriggers e (sortTriggers p.messageTriggers)
  { handled := r.2.2.isSome
    deliveredTo := none
    tested := r.1
    invoked := r.2.1
    stop := r.2.2 }

/-- `Plugin.onMessage`: if the event's conversation key resolves and an
interaction session is registered for it, the event goes to the session's
handler and the method returns `true` at once; otherwise the sorted
trigger pass runs. -/
def Plugin.onMessage (p : PluginState) (e : MessageEvent) : MsgDispatch :=
  match getInteractKey e with
  | some key =>
    match alookup p.interactions key with
    | some sess =>
      { handled := true, deliveredTo := some sess.sid
        tested := [], invoked := [], stop := none }
    | none => onMessageTriggers p e
  | none => onMessageTriggers p e

/-! ## Bot dispatch (`bot.ts`)

`Bot.pluginList` is `[...this._plugins.values()]` — the plugins in Map
insertion order; `Bot.onMessage` offers the event to each in that order,
stopping at the first whose `onMessage` returns `true`. -/

/-- `Bot.onMessage`, observed as the list of plugin ids the event was
offered to, in offer order. -/
def botOnMessage : List PluginState → MessageEvent → List String
  | [], _ => []
  | p :: rest, e =>
    if (Plugin.onMessage p e).handled then [p.id]
    else p.id :: botOnMessage rest e

/-! ## Client lifecycle (`client.ts`)

`gracefulExit` sets the `_exiting` latch, kicks off the all-settled run of
the registered exit handlers whose continuation calls `process.exit`, and
schedules a second, 10-second fallback `process.exit`.  `process.exit`
terminates the process, so once one scheduled exit ran, no further
scheduled callback runs. -/

/-- The `Client` state `gracefulExit` touches.  `handlerLog` records each
exit-handler invocation; `pendingExits` counts scheduled (not yet run)
`process.exit` continuations; `exitCount` counts `process.exit` calls
that actually executed. -/
structure ClientState where
  exitHandlers : List String
  exiting : Bool := false
  handlerLog : List String := []
  pendingExits : Nat := 0
  terminated : Bool := false
  exitCount : Nat := 0
deriving DecidableEq

/-- One synchronous `gracefulExit` call: a no-op when `_exiting` is
already set; otherwise sets the latch, starts every registered exit
handler, and schedules both the all-settled exit continuation and the
10-second fallback exit. -/
def gracefulExit (s : ClientState) : ClientState :=
  if s.exiting then s
  else
    { s with
        exiting := true
        handlerLog := s.handlerLog ++ s.exitHandlers
        pendingExits := s.pendingExits + 2 }

/-- `n` sequential `gracefulExit` calls (JS interleaves "concurrent"
calls sequentially on the single event-loop thread). -/
def gracefulExitCalls : Nat → ClientState → ClientState
  | 0, s => s
  | n + 1, s => gracefulExitCalls n (gracefulExit s)

/-- Running one scheduled `process.exit` continuation: once the process
is terminated no callback runs any more; otherwise the call terminates
the process. -/
def runScheduledExit (s : ClientState) : ClientState :=
  if s.pendingExits = 0 then s
  else if s.terminated then { s with pendingExits := s.pendingExits - 1 }
  else
    { s with
        pendingExits := s.pendingExits - 1
        terminated := true
        exitCount := s.exitCount + 1 }

/-- Draining `n` scheduled exit continuations. -/
def drainExits : Nat → ClientState → ClientState
  | 0, s => s
  | n + 1, s => drainExits n (runScheduledExit s)

/-! ## Dependency manager (`dependency-manager.ts`)

The store `installStatus : Map<string, InstallStatus>` is modelled with
an explicit heap because object identity is observable:
`setInstallStatus` builds a *new* object (`{ ...old, ...patch }`) and
re-points the map at it, leaving any previously captured object
unchanged — which is exactly what `waitForInstallation`'s captured
`status` binding sees. -/

/-- An `InstallStatus` record.  Absent (`undefined`) fields of the JS
object read as their falsy defaults. -/
structure InstallStatus where
  installing : Bool := false
  installed : Bool := false
  error : Bool := false
  lastInstallTime : Option Nat := none
  dependenciesHash : Option String := none
  needBuild : Option Bool := none
  buildScript : Option String := none
  version : Option String := none
deriving DecidableEq

/-- A partial status update, as passed to `setInstallStatus`: an outer
`none` means the field is absent from the literal, an outer `some` means
the spread overwrites it (possibly with `undefined`, the inner `none`). -/
structure StatusPatch where
  installing : Option Bool := none
  installed : Option Bool := none
  error : Option Bool := none
  lastInstallTime : Option (Option Nat) := none
  dependenciesHash : Option (Option String) := none
  needBuild : Option (Option Bool) := none
  buildScript : Option (Option String) := none
  version : Option (Option String) := none
deriving DecidableEq

/-- The object spread `{ ...old, ...patch }`. -/
def applyPatch (st : InstallStatus) (p : StatusPatch) : InstallStatus :=
  { installing := p.installing.getD st.installing
    installed := p.installed.getD st.installed
    error := p.error.getD st.error
    lastInstallTime := p.lastInstallTime.getD st.lastInstallTime
    dependenciesHash := p.dependenciesHash.getD st.dependenciesHash
    needBuild := p.needBuild.getD st.needBuild
    buildScript := p.buildScript.getD st.buildScript
    version := p.version.getD st.version }

/-- The install-status store with explicit object identity: `map` sends a
module dir to the reference of its current status object, `heap` sends
references to the objects themselves, `nextRef` is the next fresh
reference. -/
structure DMState where
  map : List (String × Nat) := []
  heap : List (Nat × InstallStatus) := []
  nextRef : Nat := 0
deriving DecidableEq

/-- The empty store. -/
def DMState.empty : DMState := {}

/-- Well-formedness: every allocated object has a reference below
`nextRef` (true of every state reachable from the empty store). -/
def DMState.WF (s : DMState) : Prop :=
  ∀ p ∈ s.heap, p.1 < s.nextRef

instance (s : DMState) : Decidable s.WF := by
  unfold DMState.WF; exact inferInstance

/-- `getInstallStatus(moduleDir)`: the status object the map currently
points at. -/
def getStatus (s : DMState) (key : String) : Option InstallStatus :=
  (alookup s.map key).bind (fun r => alookup s.heap r)

/-- `setInstallStatus(moduleDir, status)`:
`installStatus.set(moduleDir, { ...installStatus.get(moduleDir), ...status })`
— allocates a fresh object holding the merge and re-points the map at it.
The previously stored object (if any) is left untouched on the heap. -/
def setInstallStatus (s : DMState) (key : String) (p : StatusPatch) : DMState :=
  let merged := applyPatch ((getStatus s key).getD {}) p
  { map := aset s.map key s.nextRef
    heap := s.heap ++ [(s.nextRef, merged)]
    nextRef := s.nextRef + 1 }

/-- Reading a captured status object (by reference) from the heap. -/
def heapAt (s : DMState) (r : Nat) : InstallStatus :=
  (alookup s.heap r).getD {}

/-- The poll loop of `waitForInstallation`, with `fuel` remaining 100 ms
sleeps before the 30 s budget is exhausted.  Each sleep lets at most one
concurrent `setInstallStatus` call (the next element of `updates`) run.
The loop condition reads `status.installing` from the *captured* object
`r`.  Returns the value of the final `if (status.installing)` check
together with the final store. -/
def waitPoll (r : Nat) : Nat → DMState → List (String × StatusPatch) → Bool × DMState
  | 0, s, _ => ((heapAt s r).installing, s)
  | fuel + 1, s, us =>
    if (heapAt s r).installing then
      match us with
      | [] => waitPoll r fuel s []
      | (k, p) :: rest => waitPoll r fuel (setInstallStatus s k p) rest
    else (false, s)

/-- `waitForInstallation(moduleDir)` run against a schedule `updates` of
concurrent `setInstallStatus` calls: returns immediately when no status
is stored or it is not `installing`; otherwise polls every 100 ms for at
most 30 s (300 polls) and throws a timeout error when the captured
status still reads `installing`. -/
def waitForInstallation (s : DMState) (key : String)
    (updates : List (String × StatusPatch)) : Except String Unit × DMState :=
  match alookup s.map key with
  | none => (.ok (), s)
  | some r =>
    if ¬ (heapAt s r).installing then (.ok (), s)
    else
      let out := waitPoll r 300 s updates
      (if out.1 then .error "timeout" else .ok (), out.2)

/-- The freshly recomputed module information of `getModuleInfo`. -/
structure ModuleInfo where
  needBuild : Bool
  buildScript : String
  version : String
  dependenciesHash : String
deriving DecidableEq

/-- The initial status check of `runInstall`: only when *no* status is
stored does it write `{ installing: true, installed: false, error: false }`. -/
def runInstallInit (s : DMState) (key : String) : DMState :=
  match getStatus s key with
  | some _ => s
  | none =>
    setInstallStatus s key
      { installing := some true, installed := some false, error := some false }

/-- The retry loop of `runInstall`: up to `n` attempts, each consuming
one outcome of the exec stream, stopping at the first success. -/
def attemptInstall : Nat → List Bool → Bool × List Bool
  | 0, stream => (false, stream)
  | n + 1, stream =>
    if stream.headD false then (true, stream.tail)
    else attemptInstall n stream.tail

/-- `runInstall(moduleDir, moduleInfo)`: the initial status check, then
up to 3 install attempts; on success the status is merged with
`{ installed: true, installing: false, error: false, lastInstallTime: now,
dependenciesHash: moduleInfo.dependenciesHash }`; when all 3 attempts
failed the thrown error is caught, the status merged with
`{ installed: false, installing: false, error: true,
lastInstallTime: undefined, dependenciesHash: undefined }`, and the error
re-thrown. -/
def runInstall (s : DMState) (key : String) (minfo : ModuleInfo) (now : Nat)
    (stream : List Bool) : DMState × Except Unit Unit × List Bool :=
  let s1 := runInstallInit s key
  match attemptInstall 3 stream with
  | (true, rest) =>
    (setInstallStatus s1 key
        { installed := some true, installing := some false, error := some false
          lastInstallTime := some (some now)
          dependenciesHash := some (some minfo.dependenciesHash) },
      .ok (), rest)
  | (false, rest) =>
    (setInstallStatus s1 key
        { installed := some false, installing := some false, error := some true
          lastInstallTime := some none, dependenciesHash := some none },
      .error (), rest)

/-- `runBuild(moduleDir, moduleInfo)`: marks installing/needBuild, runs
the build script (one exec outcome), then writes the success or error
status and propagates a failure. -/
def runBuild (s : DMState) (key : String) (minfo : ModuleInfo)
    (stream : List Bool) : DMState × Except Unit Unit × List Bool :=
  let s1 := setInstallStatus s key
    { installing := some true, installed := some false, error := some false
      needBuild := some (some true), buildScript := some (some minfo.buildScript) }
  if stream.headD false then
    (setInstallStatus s1 key
        { installing := some false, installed := some true, error := some false
          version := some (some minfo.version) },
      .ok (), stream.tail)
  else
    (setInstallStatus s1 key
        { installing := some false, installed := some false, error := some true
          version := some none },
      .error (), stream.tail)

/-- The state of the module's `node_modules` directory as probed by
`checkModuleStatus` (missing, present but empty, or populated). -/
inductive NodeModulesState : Type
  | missing
  | empty
  | nonEmpty
deriving DecidableEq

/-- `checkModuleStatus(moduleDir)` → `(needInstall, needBuild)`: no or
not-installed status, a prior error, a changed dependency hash, or a
missing/empty `node_modules` each force an install; otherwise a build is
needed exactly when the module declares one and its version changed. -/
def checkModuleStatus (s : DMState) (key : String) (minfo : ModuleInfo)
    (nm : NodeModulesState) : Bool × Bool :=
  match getStatus s key with
  | none => (true, false)
  | some st =>
    if ¬ st.installed then (true, false)
    else if st.error then (true, false)
    else if ¬ minfo.dependenciesHash = "" ∧
        ¬ st.dependenciesHash = some minfo.dependenciesHash then (true, false)
    else
      match nm with
      | .missing => (true, false)
      | .empty => (true, false)
      | .nonEmpty =>
        (false, minfo.needBuild && !(st.version = some minfo.version : Bool))

/-- One entry of the trace of install/build invocations performed by
`installDependencies`. -/
inductive Step : Type
  | install
  | build
deriving DecidableEq

/-- The code after the `if (forceReinstall)` block of
`installDependencies` (which the force branch *falls through to*, having
no `return`): the early return when nothing is needed, the build-only
path, and the final install-then-maybe-build block.  `tr` is the trace
accumulated so far. -/
def installDependenciesRest (s : DMState) (key : String) (minfo : ModuleInfo)
    (needInstall needBuild force : Bool) (now : Nat) (stream : List Bool)
    (tr : List Step) : DMState × Except Unit Unit × List Step :=
  if ¬ needInstall ∧ ¬ needBuild then (s, .ok (), tr)
  else if ¬ needInstall ∧ needBuild ∧ ¬ force then
    let b := runBuild s key minfo stream
    (b.1, b.2.1, tr ++ [.build])
  else
    let r := runInstall s key minfo now stream
    match r.2.1 with
    | .error e => (r.1, .error e, tr ++ [.install])
    | .ok _ =>
      if minfo.needBuild then
        let b := runBuild r.1 key minfo r.2.2
        (b.1, b.2.1, tr ++ [.install, .build])
      else (r.1, .ok (), tr ++ [.install])

/-- `installDependencies(moduleDir, forceReinstall)`: checks the module
status, then — when forcing — runs install and (if the module declares a
build) build, re-throwing their errors; the function then *continues*
into the status-driven logic (the source has no `return` at the end of
the force branch).  The third component is the trace of `runInstall` /
`runBuild` invocations. -/
def installDependencies (s : DMState) (key : String) (minfo : ModuleInfo)
    (nm : NodeModulesState) (force : Bool) (now : Nat) (stream : List Bool) :
    DMState × Except Unit Unit × List Step :=
  let c := checkModuleStatus s key minfo nm
  if force then
    let r := runInstall s key minfo now stream
    match r.2.1 with
    | .error e => (r.1, .error e, [.install])
    | .ok _ =>
      if minfo.needBuild then
        let b := runBuild r.1 key minfo r.2.2
        match b.2.1 with
        | .error e => (b.1, .error e, [.install, .build])
        | .ok _ =>
          installDependenciesRest b.1 key minfo c.1 c.2 force now b.2.2
            [.install, .build]
      else
        installDependenciesRest r.1 key minfo c.1 c.2 force now r.2.2 [.install]
  else installDependenciesRest s key minfo c.1 c.2 force now stream []

/-! ## Helper lemmas -/

/-- The `Trigger` base constructor runs `if (abort) this._abort = abort;`
— a truthiness test — so a constructed message trigger always carries
`_abort = true`, whatever was passed. -/
theorem mkMessageTrigger_abort (o : MessageTriggerOpts) :
    (mkMessageTrigger o).abort = true := by
  unfold mkMessageTrigger jsTruthy
  cases o.abort with
  | none => simp
  | some b => cases b <;> simp

/-- On a trigger with `_abort = true`, `handle` returns `true` exactly on
a scope-and-predicate match. -/
theorem handle_result_of_abort (t : MessageTrigger) (e : MessageEvent)
    (h : t.abort = true) : (t.handle e).result = matchesB t e := by
  unfold MessageTrigger.handle matchesB
  by_cases h1 : t.filterType e <;> by_cases h2 : t.filter e <;>
    simp [h1, h2, h]

/-- `handle` invokes the handler exactly on a scope-and-predicate match. -/
theorem handle_invoked (t : MessageTrigger) (e : MessageEvent) :
    (t.handle e).invoked = matchesB t e := by
  unfold MessageTrigger.handle matchesB
  by_cases h1 : t.filterType e <;> by_cases h2 : t.filter e <;>
    by_cases h3 : t.abort <;> simp [h1, h2, h3]

/-- A successful first-match lookup survives appending entries. -/
theorem alookup_append_some {α β : Type} [DecidableEq α]
    (l l' : List (α × β)) (a : α) (b : β) (h : alookup l a = some b) :
    alookup (l ++ l') a = some b := by
  induction l with
  | nil => simp [alookup] at h
  | cons kv rest ih =>
    obtain ⟨k, v⟩ := kv
    by_cases hk : k = a <;> simp [alookup, hk] at h ⊢
    · exact h
    · exact ih h

/-- Appending a binding for a key that has none makes it found. -/
theorem alookup_append_fresh {α β : Type} [DecidableEq α]
    (l : List (α × β)) (a : α) (b : β) (h : alookup l a = none) :
    alookup (l ++ [(a, b)]) a = some b := by
  induction l with
  | nil => simp [alookup]
  | cons kv rest ih =>
    obtain ⟨k, v⟩ := kv
    by_cases hk : k = a <;> simp [alookup, hk] at h ⊢
    exact ih h

/-- `aset` makes its binding found. -/
theorem alookup_aset_self {α β : Type} [DecidableEq α]
    (l : List (α × β)) (a : α) (b : β) : alookup (aset l a b) a = some b := by
  induction l with
  | nil => simp [aset, alookup]
  | cons kv rest ih =>
    obtain ⟨k, v⟩ := kv
    by_cases hk : k = a <;> simp [aset, alookup, hk]
    exact ih

/-- A key all of whose competitors are below `n` cannot be bound to `n`. -/
theorem alookup_none_of_lt {β : Type} (l : List (Nat × β)) (n : Nat)
    (h : ∀ p ∈ l, p.1 < n) : alookup l n = none := by
  induction l with
  | nil => rfl
  | cons kv rest ih =>
    obtain ⟨k, v⟩ := kv
    have hk : k < n := h (k, v) (List.mem_cons_self _ _)
    have : ¬ k = n := by omega
    simp [alookup, this]
    exact ih (fun p hp => h p (List.mem_cons_of_mem _ hp))

/-- `setInstallStatus` leaves every previously allocated status object
unchanged: a captured reference keeps reading the old record. -/
theorem alookup_heap_set (s : DMState) (key : String) (p : StatusPatch)
    (r : Nat) (st : InstallStatus) (h : alookup s.heap r = some st) :
    alookup (setInstallStatus s key p).heap r = some st :=
  alookup_append_some _ _ _ _ h

/-- Well-formedness survives `setInstallStatus`. -/
theorem WF_setInstallStatus (s : DMState) (key : String) (p : StatusPatch)
    (h : s.WF) : (setInstallStatus s key p).WF := by
  intro q hq
  unfold setInstallStatus at hq
  simp only [List.mem_append, List.mem_singleton] at hq
  rcases hq with hq | hq
  · have := h q hq; simp only [setInstallStatus]; omega
  · subst hq; simp only [setInstallStatus]; omega

/-- On a well-formed store, `getInstallStatus` after `setInstallStatus`
returns the merged record. -/
theorem getStatus_set (s : DMState) (key : String) (p : StatusPatch)
    (h : s.WF) :
    getStatus (setInstallStatus s key p) key =
      some (applyPatch ((getStatus s key).getD {}) p) := by
  unfold getStatus setInstallStatus
  rw [alookup_aset_self]
  simp only [Option.bind_some, Option.some_bind]
  exact alookup_append_fresh _ _ _ (alookup_none_of_lt _ _ h)

/-- Well-formedness survives the initial status check of `runInstall`. -/
theorem WF_runInstallInit (s : DMState) (key : String) (h : s.WF) :
    (runInstallInit s key).WF := by
  unfold runInstallInit
  cases getStatus s key with
  | none => exact WF_setInstallStatus _ _ _ h
  | some st => exact h

/-! ## C1 — `abort=false` on a message trigger -/

/-- C1 (code bug): a message trigger constructed with `abort: false`
still *stops* evaluation on a match — `handle` invokes the handler and
returns `true`, because the constructor's truthiness test `if (abort)`
ignores the explicit `false` and leaves the default `_abort = true`.  The
claim (and the constructor's own documentation of `abort`, default
`true`) says such a match must return `false` and let lower-priority
triggers run. -/
theorem c1_abort_false_still_aborts (o : MessageTriggerOpts) (e : MessageEvent)
    (_hab : o.abort = some false)
    (hscope : (mkMessageTrigger o).filterType e = true)
    (hmatch : (mkMessageTrigger o).filter e = true) :
    MessageTrigger.handle (mkMessageTrigger o) e = ⟨true, true⟩ := by
  have h := mkMessageTrigger_abort o
  unfold MessageTrigger.handle
  simp [hscope, hmatch, h]

/-- The failing input of C1: an explicit `abort: false` trigger whose
predicate accepts everything. -/
def c1Opts : MessageTriggerOpts :=
  { name := "t", abort := some false, filter := some (fun _ => true) }

/-- A private message event (scope `"message"` matches it). -/
def c1Event : MessageEvent := ⟨⟨"hello", "u", some (.person "u")⟩⟩

/-- Witness for C1 at the failing input. -/
theorem c1_abort_false_still_aborts_witness :
    c1Opts.abort = some false ∧
      MessageTrigger.handle (mkMessageTrigger c1Opts) c1Event = ⟨true, true⟩ :=
  ⟨rfl, c1_abort_false_still_aborts c1Opts c1Event rfl rfl rfl⟩

/-! ## C10 — a `NoticeTrigger` without `event`/`events` -/

/-- C10: a `NoticeTrigger` constructed without `event` or `events` has an
empty scope set, so for every notice event `handle` returns `false`
without invoking the handler — the trigger can never fire. -/
theorem c10_noticeTrigger_empty_scope_never_fires (n d : String)
    (e : NoticeEvent) :
    NoticeTrigger.handle (mkNoticeTrigger { name := n, description := d }) e =
      ⟨false, false⟩ := by
  simp [mkNoticeTrigger, NoticeTrigger.handle, NoticeTrigger.filterType,
    List.contains]

/-! ## C4 — interaction sessions bypass trigger evaluation -/

/-- C4: when the event's conversation key holds an active interaction
session, `Plugin.onMessage` hands the event to the session's handler,
tests no trigger and runs no trigger handler, and returns `true`. -/
theorem c4_session_bypasses_triggers (p : PluginState) (e : MessageEvent)
    (key : String) (sess : Session)
    (hkey : getInteractKey e = some key)
    (hsess : alookup p.interactions key = some sess) :
    Plugin.onMessage p e =
      { handled := true, deliveredTo := some sess.sid
        tested := [], invoked := [], stop := none } := by
  simp only [Plugin.onMessage, hkey, hsess]

/-- A plugin with a registered session for `private:u` and many would-be
matching triggers. -/
def c4Plugin : PluginState :=
  { id := "p4"
    messageTriggers :=
      [mkMessageTrigger { name := "x", filter := some (fun _ => true) },
        mkMessageTrigger { name := "y", filter := some (fun _ => true) }]
    interactions := [("private:u", ⟨7, none⟩)] }

/-- A private message event from sender `u`. -/
def c4Event : MessageEvent := ⟨⟨"anything", "u", some (.person "u")⟩⟩

/-- Witness for C4 at a concrete plugin and event. -/
theorem c4_session_bypasses_triggers_witness :
    Plugin.onMessage c4Plugin c4Event =
      { handled := true, deliveredTo := some 7
        tested := [], invoked := [], stop := none } :=
  c4_session_bypasses_triggers c4Plugin c4Event "private:u" ⟨7, none⟩ rfl rfl

/-! ## C2 — replacing an interaction session -/

/-- The conversation in which two sessions are started for one key. -/
def c2Event : MessageEvent := ⟨⟨"hi", "u", some (.person "u")⟩⟩

/-- First session (handler 0) with a timeout. -/
def c2P1 : PluginState := startInteract { id := "p2" } c2Event 0 (some 5) "timed out"

/-- Second session (handler 1) for the same key, started before the first
session's timer fired. -/
def c2P2 : PluginState := startInteract c2P1 c2Event 1 (some 5) "timed out"

/-- C2 (code bug): `startInteract` replaces the session for the key but
never clears the replaced session's pending timeout (`startInteract` has
no `clearTimeout`, unlike `finishInteract`).  The old timer (handle 0) is
still pending after the replacement, and when it fires its callback
deletes the *new* session and sends the timeout message — exactly what
the claim says never happens. -/
theorem c2_replaced_session_timeout_fires :
    c2P2.timers.map PendingTimer.tid = [0, 1] ∧
      alookup c2P2.interactions "private:u" = some ⟨1, some 1⟩ ∧
      alookup (fireTimer c2P2 0).interactions "private:u" = none ∧
      (fireTimer c2P2 0).sent = ["timed out"] := by
  refine ⟨rfl, rfl, rfl, rfl⟩

/-! ## C8 — idempotent graceful exit -/

/-- After a `gracefulExit` call the `_exiting` latch makes further calls
no-ops. -/
theorem gracefulExitCalls_of_exiting (n : Nat) (s : ClientState)
    (h : s.exiting = true) : gracefulExitCalls n s = s := by
  induction n with
  | zero => rfl
  | succ m ih =>
    unfold gracefulExitCalls gracefulExit
    rw [h]
    simpa using ih

/-- C8: `gracefulExit` called `n ≥ 1` times invokes each registered exit
handler exactly once (the invocation log equals the registration list)
and, after the scheduled `process.exit` continuations run, exactly one
process-termination call has executed. -/
theorem c8_gracefulExit_idempotent (n : Nat) (handlers : List String)
    (hn : 1 ≤ n) :
    (drainExits (gracefulExitCalls n { exitHandlers := handlers }).pendingExits
        (gracefulExitCalls n { exitHandlers := handlers })).handlerLog =
        handlers ∧
      (drainExits (gracefulExitCalls n { exitHandlers := handlers }).pendingExits
          (gracefulExitCalls n { exitHandlers := handlers })).exitCount = 1 := by
  obtain ⟨m, rfl⟩ : ∃ m, n = m + 1 := ⟨n - 1, by omega⟩
  have h1 : gracefulExitCalls (m + 1) { exitHandlers := handlers } =
      gracefulExit { exitHandlers := handlers } := by
    unfold gracefulExitCalls
    exact gracefulExitCalls_of_exiting m _ rfl
  simp only [h1]
  simp [gracefulExit, drainExits, runScheduledExit]

/-- Witness for C8: three concurrent calls with two registered handlers. -/
theorem c8_gracefulExit_idempotent_witness :
    (1 ≤ 3) ∧
      ((drainExits (gracefulExitCalls 3 { exitHandlers := ["db", "ws"] }).pendingExits
          (gracefulExitCalls 3 { exitHandlers := ["db", "ws"] })).handlerLog =
          ["db", "ws"] ∧
        (drainExits (gracefulExitCalls 3 { exitHandlers := ["db", "ws"] }).pendingExits
            (gracefulExitCalls 3 { exitHandlers := ["db", "ws"] })).exitCount = 1) :=
  ⟨by omega, c8_gracefulExit_idempotent 3 ["db", "ws"] (by omega)⟩

/-! ## C9 — plugin priority and dispatcher order -/

/-- Plugin `A`: registered first, priority 0, with a universally matching
aborting trigger. -/
def c9PA : PluginState :=
  { id := "A", priority := 0
    messageTriggers := [mkMessageTrigger { name := "a", filter := some (fun _ => true) }] }

/-- Plugin `B`: registered second, priority 5, with a universally
matching trigger of its own. -/
def c9PB : PluginState :=
  { id := "B", priority := 5
    messageTriggers := [mkMessageTrigger { name := "b", filter := some (fun _ => true) }] }

/-- The inbound message both plugins would handle. -/
def c9Event : MessageEvent := ⟨⟨"hello", "u", some (.person "u")⟩⟩

/-- C9 counterexample: with `A` (priority 0) registered before `B`
(priority 5), the Bot offers the event to `A` first and `B` — the
higher-priority plugin — is never offered it at all: dispatch follows Map
insertion order, not plugin priority. -/
theorem c9_higher_priority_not_first :
    c9PA.priority < c9PB.priority ∧
      botOnMessage [c9PA, c9PB] c9Event = ["A"] := by
  refine ⟨by decide, rfl⟩

/-- `Plugin.onMessage` never reads the plugin's `priority` field. -/
theorem onMessage_priority_irrelevant (p : PluginState) (q : Int)
    (e : MessageEvent) :
    Plugin.onMessage { p with priority := q } e = Plugin.onMessage p e := rfl

/-- C9 (amended): `Bot.onMessage` offers the event to the plugins in Map
insertion (registration) order — the offered ids are a prefix of the
registration order — and the offer sequence is invariant under arbitrary
reassignment of every plugin's priority. -/
theorem c9_dispatch_is_registration_order (ps : List PluginState)
    (e : MessageEvent) :
    (∃ k, botOnMessage ps e = (ps.map PluginState.id).take k) ∧
      (∀ f : PluginState → Int,
        botOnMessage (ps.map (fun p => { p with priority := f p })) e =
          botOnMessage ps e) := by
  constructor
  · induction ps with
    | nil => exact ⟨0, rfl⟩
    | cons p rest ih =>
      by_cases h : (Plugin.onMessage p e).handled
      · exact ⟨1, by simp [botOnMessage, h]⟩
      · obtain ⟨k, hk⟩ := ih
        exact ⟨k + 1, by simp [botOnMessage, h, hk]⟩
  · intro f
    induction ps with
    | nil => rfl
    | cons p rest ih =>
      simp only [List.map_cons, botOnMessage, onMessage_priority_irrelevant, ih]

/-! ## C3 — `waitForInstallation` and concurrent status updates -/

/-- The poll loop reads the status object captured at entry, and
`setInstallStatus` never mutates an allocated object, so once the
captured object reads `installing`, every poll reads `installing` —
whatever updates run concurrently. -/
theorem waitPoll_stale (r : Nat) (st : InstallStatus)
    (hst : st.installing = true) :
    ∀ (fuel : Nat) (s : DMState) (us : List (String × StatusPatch)),
      alookup s.heap r = some st → (waitPoll r fuel s us).1 = true := by
  intro fuel
  induction fuel with
  | zero =>
    intro s us h
    simp [waitPoll, heapAt, h, hst]
  | succ m ih =>
    intro s us h
    unfold waitPoll
    have hread : heapAt s r = st := by simp [heapAt, h]
    rw [hread, hst]
    simp only [if_true]
    cases us with
    | nil => exact ih s [] h
    | cons u rest =>
      obtain ⟨k, patch⟩ := u
      exact ih _ rest (alookup_heap_set s k patch r st h)

/-- C3 (code bug): when the stored status of `key` reads `installing`,
`waitForInstallation` raises the timeout error *whatever*
`setInstallStatus` calls run during the wait — in particular also when
one of them sets `installing: false` for that very module.  The loop
condition reads the captured status object, while `setInstallStatus`
builds a new object and re-points the map, so the update is never
observed.  The claim says such a wait returns normally without error. -/
theorem c3_wait_ignores_updates (s : DMState) (key : String) (r : Nat)
    (st : InstallStatus) (updates : List (String × StatusPatch))
    (h1 : alookup s.map key = some r)
    (h2 : alookup s.heap r = some st)
    (h3 : st.installing = true) :
    (waitForInstallation s key updates).1 = .error "timeout" := by
  have hread : heapAt s r = st := by simp [heapAt, h2]
  have hpoll := waitPoll_stale r st h3 300 s updates h2
  simp [waitForInstallation, h1, hread, h3, hpoll]

/-- A store in which module `m` is marked `installing`. -/
def c3S0 : DMState :=
  setInstallStatus DMState.empty "m" { installing := some true }

/-- The concurrent update of the failing input: `setInstallStatus`
marking module `m` as no longer installing, run during the wait. -/
def c3Updates : List (String × StatusPatch) :=
  [("m", { installing := some false })]

/-- Witness for C3 at the failing input: the wait still times out even
though `setInstallStatus("m", { installing: false })` ran during it. -/
theorem c3_wait_ignores_updates_witness :
    c3Updates = [("m", { installing := some false })] ∧
      (waitForInstallation c3S0 "m" c3Updates).1 = .error "timeout" :=
  ⟨rfl, c3_wait_ignores_updates c3S0 "m" 0 { installing := true } c3Updates
    rfl rfl rfl⟩

/-! ## C6 — `runInstall` status transitions -/

/-- C6 counterexample: with a stored status (`installed`, not
`installing`), the initial status check of `runInstall` is a no-op — the
call does *not* mark `installing = true` (it only does so when no status
is stored at all). -/
theorem c6_no_installing_mark :
    (getStatus (setInstallStatus DMState.empty "m"
        { installing := some false, installed := some true, error := some false })
        "m").map InstallStatus.installing = some false ∧
      runInstallInit (setInstallStatus DMState.empty "m"
          { installing := some false, installed := some true, error := some false })
        "m" =
        setInstallStatus DMState.empty "m"
          { installing := some false, installed := some true, error := some false } := by
  exact ⟨rfl, rfl⟩

/-- Success of the retry loop within three attempts. -/
theorem attemptInstall_succ (stream : List Bool) (h : true ∈ stream.take 3) :
    (attemptInstall 3 stream).1 = true := by
  match stream with
  | [] => simp at h
  | [a] => cases a <;> simp_all [attemptInstall]
  | [a, b] => cases a <;> cases b <;> simp_all [attemptInstall]
  | a :: b :: c :: rest =>
    cases a <;> cases b <;> cases c <;> simp_all [attemptInstall, List.take]

/-- Failure of the retry loop when no success occurs in three attempts. -/
theorem attemptInstall_fail (stream : List Bool) (h : true ∉ stream.take 3) :
    (attemptInstall 3 stream).1 = false := by
  match stream with
  | [] => rfl
  | [a] => cases a <;> simp_all [attemptInstall]
  | [a, b] => cases a <;> cases b <;> simp_all [attemptInstall]
  | a :: b :: c :: rest =>
    cases a <;> cases b <;> cases c <;> simp_all [attemptInstall, List.take]

/-- C6 (amended): `runInstall` marks `installing = true` (initializing
`installed = false`, `error = false`) exactly in the case where *no*
status is stored for the module; on a success within the 3 attempts it
merges `installed = true, installing = false, error = false,
lastInstallTime = now, dependenciesHash = <computed hash>` and returns
normally; after 3 consecutive failures it merges `installed = false,
installing = false, error = true` with `lastInstallTime` and
`dependenciesHash` cleared, and propagates the error. -/
theorem c6_runInstall_status (s : DMState) (key : String) (minfo : ModuleInfo)
    (now : Nat) (stream : List Bool) (hWF : s.WF) :
    (getStatus s key = none →
      getStatus (runInstallInit s key) key =
        some { installing := true, installed := false, error := false }) ∧
    (true ∈ stream.take 3 →
      (runInstall s key minfo now stream).2.1 = .ok () ∧
      ∃ st, getStatus (runInstall s key minfo now stream).1 key = some st ∧
        st.installed = true ∧ st.installing = false ∧ st.error = false ∧
        st.lastInstallTime = some now ∧
        st.dependenciesHash = some minfo.dependenciesHash) ∧
    (true ∉ stream.take 3 →
      (runInstall s key minfo now stream).2.1 = .error () ∧
      ∃ st, getStatus (runInstall s key minfo now stream).1 key = some st ∧
        st.installed = false ∧ st.installing = false ∧ st.error = true ∧
        st.lastInstallTime = none ∧ st.dependenciesHash = none) := by
  have hWF1 : (runInstallInit s key).WF := WF_runInstallInit s key hWF
  refine ⟨?_, ?_, ?_⟩
  · intro h
    unfold runInstallInit
    rw [h]
    rw [getStatus_set s key _ hWF]
    rw [h]
    rfl
  · intro h
    have hs := attemptInstall_succ stream h
    unfold runInstall
    rw [← Prod.mk.eta (p := attemptInstall 3 stream), hs]
    refine ⟨rfl, ?_⟩
    refine ⟨_, getStatus_set _ key _ hWF1, ?_⟩
    simp [applyPatch]
  · intro h
    have hs := attemptInstall_fail stream h
    unfold runInstall
    rw [← Prod.mk.eta (p := attemptInstall 3 stream), hs]
    refine ⟨rfl, ?_⟩
    refine ⟨_, getStatus_set _ key _ hWF1, ?_⟩
    simp [applyPatch]

/-- Witness for C6 (amended) on the empty store: the initialization
clause and the success clause at a concrete input. -/
theorem c6_runInstall_status_witness :
    (getStatus (runInstallInit DMState.empty "m6") "m6" =
        some { installing := true, installed := false, error := false }) ∧
      (runInstall DMState.empty "m6" ⟨false, "build", "1.0", "h"⟩ 42 [true]).2.1 =
        .ok () :=
  ⟨(c6_runInstall_status DMState.empty "m6" ⟨false, "build", "1.0", "h"⟩ 42 [true]
        (by decide)).1 rfl,
    ((c6_runInstall_status DMState.empty "m6" ⟨false, "build", "1.0", "h"⟩ 42 [true]
        (by decide)).2.1 (by decide)).1⟩

/-! ## C7 — `installDependencies` with `forceReinstall` -/

/-- `runInstall` on a stream whose first attempt succeeds. -/
theorem runInstall_true (s : DMState) (key : String) (minfo : ModuleInfo)
    (now : Nat) (l : List Bool) :
    runInstall s key minfo now (true :: l) =
      (setInstallStatus (runInstallInit s key) key
          { installed := some true, installing := some false, error := some false
            lastInstallTime := some (some now)
            dependenciesHash := some (some minfo.dependenciesHash) },
        .ok (), l) := rfl

/-- `runInstall` on a stream whose first three attempts fail. -/
theorem runInstall_fff (s : DMState) (key : String) (minfo : ModuleInfo)
    (now : Nat) (l : List Bool) :
    runInstall s key minfo now (false :: false :: false :: l) =
      (setInstallStatus (runInstallInit s key) key
          { installed := some false, installing := some false, error := some true
            lastInstallTime := some none, dependenciesHash := some none },
        .error (), l) := rfl

/-- `runBuild` on a stream whose build command succeeds. -/
theorem runBuild_true (s : DMState) (key : String) (minfo : ModuleInfo)
    (l : List Bool) :
    runBuild s key minfo (true :: l) =
      (setInstallStatus
          (setInstallStatus s key
            { installing := some true, installed := some false, error := some false
              needBuild := some (some true)
              buildScript := some (some minfo.buildScript) })
          key
          { installing := some false, installed := some true, error := some false
            version := some (some minfo.version) },
        .ok (), l) := rfl

/-- C7 counterexample: a module with no stored status (so
`checkModuleStatus` computes `needInstall`), no declared build, forced
reinstall, all commands succeeding — `installDependencies` runs the
install step *twice*: the force branch falls through (there is no
`return` after it) into the status-driven block, which installs again. -/
theorem c7_force_installs_twice :
    (installDependencies DMState.empty "m" ⟨false, "build", "1", "h"⟩
        .nonEmpty true 0 [true, true, true, true]).2.2 =
      [.install, .install] := rfl

/-- C7 (amended): with `forceReinstall = true` and successful commands,
`installDependencies` runs one install-then-(declared)-build pass, and
then — whenever the computed status reports `needInstall` or `needBuild`
— a second identical pass (the force branch has no `return`); only when
the computed status reports neither does exactly one pass run.  An
install failure in the forced pass propagates after the single install
invocation. -/
theorem c7_force_trace (s : DMState) (key : String) (minfo : ModuleInfo)
    (nm : NodeModulesState) (now : Nat) :
    (∀ rest : List Bool,
      (installDependencies s key minfo nm true now
          (true :: true :: true :: true :: rest)).2.1 = .ok () ∧
      (installDependencies s key minfo nm true now
          (true :: true :: true :: true :: rest)).2.2 =
        (Step.install :: (if minfo.needBuild then [Step.build] else [])) ++
          (if (checkModuleStatus s key minfo nm).1 ||
              (checkModuleStatus s key minfo nm).2 then
            Step.install :: (if minfo.needBuild then [Step.build] else [])
          else [])) ∧
    (∀ rest : List Bool,
      (installDependencies s key minfo nm true now
          (false :: false :: false :: rest)).2.1 = .error () ∧
      (installDependencies s key minfo nm true now
          (false :: false :: false :: rest)).2.2 = [Step.install]) := by
  rcases hC : checkModuleStatus s key minfo nm with ⟨ni, nb⟩
  constructor
  · intro rest
    cases hnb : minfo.needBuild <;> cases ni <;> cases nb <;>
      simp [installDependencies, installDependenciesRest, runInstall_true,
        runBuild_true, hC, hnb]
  · intro rest
    cases hnb : minfo.needBuild <;>
      simp [installDependencies, runInstall_fff, hC, hnb]

/-! ## C5 — priority order of trigger evaluation -/

/-- With no applicable interaction session, `Plugin.onMessage` is its
trigger pass. -/
theorem onMessage_no_session (p : PluginState) (e : MessageEvent)
    (hsess : sessionFor p e = none) :
    Plugin.onMessage p e = onMessageTriggers p e := by
  unfold sessionFor at hsess
  cases hk : getInteractKey e with
  | none => simp only [Plugin.onMessage, hk]
  | some key =>
    rw [hk] at hsess
    simp only [Option.some_bind] at hsess
    simp only [Plugin.onMessage, hk, hsess]

/-- The trigger loop returns no stopping index exactly when no trigger
in the pass matches (given every trigger aborts, which the constructor
forces). -/
theorem runTriggers_none_iff (e : MessageEvent)
    (l : List (Nat × MessageTrigger)) (hab : ∀ q ∈ l, q.2.abort = true) :
    (runTriggers e l).2.2 = none ↔ ∀ q ∈ l, matchesB q.2 e = false := by
  induction l with
  | nil => simp [runTriggers]
  | cons q rest ih =>
    obtain ⟨j, u⟩ := q
    have hres : (u.handle e).result = matchesB u e :=
      handle_result_of_abort u e (hab (j, u) (List.mem_cons_self _ _))
    have habr : ∀ q ∈ rest, q.2.abort = true :=
      fun q hq => hab q (List.mem_cons_of_mem _ hq)
    cases hm : matchesB u e with
    | true =>
      rw [hm] at hres
      simp [runTriggers, hres, hm]
    | false =>
      rw [hm] at hres
      simp [runTriggers, hres, hm, ih habr]

/-- The stopping index of the trigger loop over a `triggerLE`-sorted pass
is a matching trigger that `triggerLE`-precedes every matching trigger of
the pass. -/
theorem runTriggers_first (e : MessageEvent) :
    ∀ (l : List (Nat × MessageTrigger)), (∀ q ∈ l, q.2.abort = true) →
      l.Sorted triggerLE → ∀ i : Nat, (runTriggers e l).2.2 = some i →
      ∃ t, (i, t) ∈ l ∧ matchesB t e = true ∧
        ∀ q ∈ l, matchesB q.2 e = true → triggerLE (i, t) q := by
  intro l
  induction l with
  | nil => intro _ _ i h; simp [runTriggers] at h
  | cons q rest ih =>
    obtain ⟨j, u⟩ := q
    intro hab hsorted i hstop
    have hres : (u.handle e).result = matchesB u e :=
      handle_result_of_abort u e (hab (j, u) (List.mem_cons_self _ _))
    have habr : ∀ q ∈ rest, q.2.abort = true :=
      fun q hq => hab q (List.mem_cons_of_mem _ hq)
    cases hm : matchesB u e with
    | true =>
      rw [hm] at hres
      simp only [runTriggers, hres, if_true] at hstop
      obtain rfl : j = i := by simpa using hstop
      refine ⟨u, List.mem_cons_self _ _, hm, ?_⟩
      intro q hq _
      rcases List.mem_cons.mp hq with rfl | hq
      · exact Or.inr ⟨rfl, le_refl _⟩
      · exact List.rel_of_sorted_cons hsorted q hq
    | false =>
      rw [hm] at hres
      simp only [runTriggers, hres, if_false] at hstop
      obtain ⟨t, htmem, htm, hmax⟩ := ih habr hsorted.of_cons i hstop
      refine ⟨t, List.mem_cons_of_mem _ htmem, htm, ?_⟩
      intro q hq hqm
      rcases List.mem_cons.mp hq with rfl | hq
      · rw [hm] at hqm; cases hqm
      · exact hmax q hq hqm

/-- The trigger loop invokes exactly the handler of the trigger it stops
at (and none when it does not stop). -/
theorem runTriggers_invoked (e : MessageEvent) :
    ∀ (l : List (Nat × MessageTrigger)), (∀ q ∈ l, q.2.abort = true) →
      (∀ i : Nat, (runTriggers e l).2.2 = some i → (runTriggers e l).2.1 = [i]) ∧
      ((runTriggers e l).2.2 = none → (runTriggers e l).2.1 = []) := by
  intro l
  induction l with
  | nil => exact fun _ => ⟨fun i h => by simp [runTriggers] at h, fun _ => rfl⟩
  | cons q rest ih =>
    obtain ⟨j, u⟩ := q
    intro hab
    have hres : (u.handle e).result = matchesB u e :=
      handle_result_of_abort u e (hab (j, u) (List.mem_cons_self _ _))
    have hinv : (u.handle e).invoked = matchesB u e := handle_invoked u e
    have habr : ∀ q ∈ rest, q.2.abort = true :=
      fun q hq => hab q (List.mem_cons_of_mem _ hq)
    cases hm : matchesB u e with
    | true =>
      rw [hm] at hres hinv
      constructor
      · intro i hstop
        simp only [runTriggers, hres, if_true] at hstop ⊢
        obtain rfl : j = i := by simpa using hstop
        simp [hinv]
      · intro hstop
        simp [runTriggers, hres] at hstop
    | false =>
      rw [hm] at hres hinv
      constructor
      · intro i hstop
        simp only [runTriggers, hres, if_false] at hstop ⊢
        simp [hinv, (ih habr).1 i hstop]
      · intro hstop
        simp only [runTriggers, hres, if_false] at hstop ⊢
        simp [hinv, (ih habr).2 hstop]

/-- The trigger loop tests a nonempty prefix whenever the pass is
nonempty; in particular its tested list is empty only for an empty pass. -/
theorem runTriggers_tested_ne_nil (e : MessageEvent) (q : Nat × MessageTrigger)
    (rest : List (Nat × MessageTrigger)) :
    (runTriggers e (q :: rest)).1 ≠ [] := by
  obtain ⟨j, u⟩ := q
  by_cases h : ((u.handle e).result : Prop) <;> simp [runTriggers, h]

/-- The trigger loop stops at the last trigger it tested. -/
theorem runTriggers_tested_last (e : MessageEvent) :
    ∀ (l : List (Nat × MessageTrigger)) (i : Nat),
      (runTriggers e l).2.2 = some i → (runTriggers e l).1.getLast? = some i := by
  intro l
  induction l with
  | nil => intro i h; simp [runTriggers] at h
  | cons q rest ih =>
    obtain ⟨j, u⟩ := q
    intro i hstop
    cases hres : (u.handle e).result with
    | true =>
      simp only [runTriggers, hres, if_true] at hstop ⊢
      obtain rfl : j = i := by simpa using hstop
      rfl
    | false =>
      simp only [runTriggers, hres, Bool.false_eq_true, if_false] at hstop ⊢
      have hrest : rest ≠ [] := by
        intro hnil
        subst hnil
        simp [runTriggers] at hstop
      obtain ⟨q2, rest2, hr⟩ := List.exists_cons_of_ne_nil hrest
      have h2 := ih i hstop
      have hne := runTriggers_tested_ne_nil e q2 rest2
      rw [← hr] at hne
      obtain ⟨a, tl, ha⟩ := List.exists_cons_of_ne_nil hne
      rw [ha] at h2 ⊢
      rw [List.getLast?_cons_cons]
      exact h2

/-- Every element of the sorted pass over constructor-built triggers
aborts. -/
theorem sortTriggers_abort (ts : List MessageTrigger)
    (hmk : ∀ t ∈ ts, ∃ o, t = mkMessageTrigger o) :
    ∀ q ∈ sortTriggers ts, q.2.abort = true := by
  intro q hq
  have hq2 : q ∈ ts.enum := (List.perm_insertionSort triggerLE ts.enum).mem_iff.mp hq
  obtain ⟨i, t⟩ := q
  have ht : ts[i]? = some t := List.mk_mem_enum_iff_getElem?.mp hq2
  obtain ⟨o, rfl⟩ := hmk t (List.getElem?_mem ht)
  exact mkMessageTrigger_abort o

/-- C5: with no active interaction session and triggers built by the
`MessageTrigger` constructor (as every trigger registered through
`addTrigger` is), `Plugin.onMessage` reports handled exactly when some
registered trigger matches in scope and predicate; and the trigger at
which evaluation stops — the only one whose handler is invoked, and the
last one tested — is a matching trigger of maximal priority, earliest
registered among equal-priority matches. -/
theorem c5_highest_priority_trigger_wins (p : PluginState) (e : MessageEvent)
    (hsess : sessionFor p e = none)
    (hmk : ∀ t ∈ p.messageTriggers, ∃ o, t = mkMessageTrigger o) :
    ((Plugin.onMessage p e).handled = true ↔
      ∃ t ∈ p.messageTriggers, matchesB t e = true) ∧
    (∀ i : Nat, (Plugin.onMessage p e).stop = some i →
      ∃ t, p.messageTriggers[i]? = some t ∧ matchesB t e = true ∧
        (Plugin.onMessage p e).invoked = [i] ∧
        (Plugin.onMessage p e).tested.getLast? = some i ∧
        ∀ (j : Nat) (u : MessageTrigger), p.messageTriggers[j]? = some u →
          matchesB u e = true →
          u.priority < t.priority ∨ (t.priority = u.priority ∧ i ≤ j)) := by
  rw [onMessage_no_session p e hsess]
  have hab := sortTriggers_abort p.messageTriggers hmk
  have hsorted : (sortTriggers p.messageTriggers).Sorted triggerLE :=
    List.sorted_insertionSort triggerLE _
  have hperm : List.Perm (sortTriggers p.messageTriggers) p.messageTriggers.enum :=
    List.perm_insertionSort triggerLE _
  constructor
  · simp only [onMessageTriggers, Option.isSome]
    cases hstop : (runTriggers e (sortTriggers p.messageTriggers)).2.2 with
    | none =>
      have hall := (runTriggers_none_iff e _ hab).mp hstop
      simp only [Bool.false_eq_true, false_iff]
      rintro ⟨t, htmem, htm⟩
      obtain ⟨i, hi⟩ := List.getElem?_of_mem htmem
      have : (i, t) ∈ sortTriggers p.messageTriggers :=
        hperm.mem_iff.mpr (List.mk_mem_enum_iff_getElem?.mpr hi)
      rw [hall (i, t) this] at htm
      cases htm
    | some i =>
      simp only [true_iff]
      obtain ⟨t, htmem, htm, _⟩ := runTriggers_first e _ hab hsorted i hstop
      have : (i, t) ∈ p.messageTriggers.enum := hperm.mem_iff.mp htmem
      exact ⟨t, List.getElem?_mem (List.mk_mem_enum_iff_getElem?.mp this), htm⟩
  · intro i hstop
    simp only [onMessageTriggers] at hstop ⊢
    obtain ⟨t, htmem, htm, hmax⟩ := runTriggers_first e _ hab hsorted i hstop
    have htget : p.messageTriggers[i]? = some t :=
      List.mk_mem_enum_iff_getElem?.mp (hperm.mem_iff.mp htmem)
    refine ⟨t, htget, htm, ?_, ?_, ?_⟩
    · exact (runTriggers_invoked e _ hab).1 i hstop
    · exact runTriggers_tested_last e _ i hstop
    · intro j u hju hum
      have : (j, u) ∈ sortTriggers p.messageTriggers :=
        hperm.mem_iff.mpr (List.mk_mem_enum_iff_getElem?.mpr hju)
      have hle := hmax (j, u) this hum
      unfold triggerLE at hle
      simpa using hle

/-- A plugin whose triggers exercise priorities and ties: registration
order is `t0` (priority 1, never matches), `t1` (priority 5, matches),
`t2` (priority 5, matches), `t3` (priority 9, does not match). -/
def c5Plugin : PluginState :=
  { id := "p5"
    messageTriggers :=
      [mkMessageTrigger { name := "t0", priority := some 1, filter := some (fun _ => false) },
        mkMessageTrigger { name := "t1", priority := some 5, filter := some (fun _ => true) },
        mkMessageTrigger { name := "t2", priority := some 5, filter := some (fun _ => true) },
        mkMessageTrigger { name := "t3", priority := some 9, filter := some (fun _ => false) }] }

/-- The inbound private message of the C5 witness. -/
def c5Event : MessageEvent := ⟨⟨"hey", "u", some (.person "u")⟩⟩

/-- Witness for C5: on the concrete plugin the dispatch stops at `t1` —
registration index 1, the first-registered of the two priority-5 matching
triggers — and only its handler runs. -/
theorem c5_highest_priority_trigger_wins_witness :
    (Plugin.onMessage c5Plugin c5Event).stop = some 1 ∧
      ∃ t, c5Plugin.messageTriggers[1]? = some t ∧ matchesB t c5Event = true ∧
        (Plugin.onMessage c5Plugin c5Event).invoked = [1] ∧
        (Plugin.onMessage c5Plugin c5Event).tested.getLast? = some 1 ∧
        ∀ (j : Nat) (u : MessageTrigger), c5Plugin.messageTriggers[j]? = some u →
          matchesB u c5Event = true →
          u.priority < t.priority ∨ (t.priority = u.priority ∧ 1 ≤ j) := by
  have hstop : (Plugin.onMessage c5Plugin c5Event).stop = some 1 := rfl
  refine ⟨hstop, ?_⟩
  refine (c5_highest_priority_trigger_wins c5Plugin c5Event rfl ?_).2 1 hstop
  intro t ht
  simp only [c5Plugin, List.mem_cons, List.mem_singleton] at ht
  rcases ht with rfl | rfl | rfl | rfl | h
  · exact ⟨_, rfl⟩
  · exact ⟨_, rfl⟩
  · exact ⟨_, rfl⟩
  · exact ⟨_, rfl⟩
  · cases h

end Yuzai
